import Mathlib

/-!
# thinkjson/counter: the system collector

A shallow embedding of `src/collectors/system_collector.go` (the sampling,
aggregation and reporting loop of `main`, `agg.add`, `netTotals`, `cpuTempC`)
and the properties its specification states about it.

Modelling choices:

* `float64` is an abstract carrier `F` with the operations the program uses
  (`Float64Ops`). The one law assumed is that the conversion of an unsigned
  integer is not below zero; no law of addition or division is assumed, so
  every general theorem holds for IEEE 754 arithmetic. `exactOps` is a concrete
  carrier for evaluating the program on concrete inputs.
* `uint64` values are naturals reduced modulo `2^64` at every operation; the
  `int64` product of the report interval is reduced in two's complement.
  `Metric.Count` is an `int` that grows by one per call of `agg.add`; it is an
  integer without wrap-around.
* `map[string]*Metric` is an association list: `agg.add` updates the entry of a
  key that is present and appends an entry otherwise. The program only looks
  keys up, adds and takes `len`.
* Strings are sequences of characters; `strings.HasPrefix` and
  `strings.Contains` compare them position by position.
* The operating system, the clock, the signal channel and the HTTP endpoint are
  the environment: one `Readings` value holds what they answer during one
  iteration of the loop of `main`, and the `Event`s of an iteration are the
  lines it logs and the calls of `postJSON` it makes.
* `strings.ToLower` belongs to the Go standard library and is a parameter of
  the model (`Float64Ops.toLower`).
-/

namespace Collector

/-! ## Machine arithmetic -/

/-- The modulus of `uint64` arithmetic. -/
def u64Mod : Nat := 2 ^ 64

/-- Addition of two `uint64` values (`recv += s.BytesRecv`). -/
def u64Add (a b : Nat) : Nat := (a + b) % u64Mod

/-- Subtraction of two `uint64` values (`recv - lastNetRecv`): it wraps around
below zero. -/
def u64Sub (a b : Nat) : Nat := (a % u64Mod + (u64Mod - b % u64Mod)) % u64Mod

/-- Reduction of an integer to `int64` (two's complement). -/
def toInt64 (x : Int) : Int := (x + 2 ^ 63) % 2 ^ 64 - 2 ^ 63

/-- The operations on `float64` and on strings that the collector takes from
the Go language and its standard library. -/
structure Float64Ops (F : Type) where
  /-- The constant `0`. -/
  zero : F
  /-- The sum `x + y`. -/
  add : F → F → F
  /-- The quotient `x / y`. -/
  div : F → F → F
  /-- The conversion `float64(n)` of an `int`. -/
  ofInt : Int → F
  /-- The conversion `float64(x)` of a `uint64`. -/
  ofUInt64 : Nat → F
  /-- The comparison `x < 0`. -/
  ltZero : F → Bool
  /-- The function `strings.ToLower`. -/
  toLower : String → String
  /-- The conversion of an unsigned integer is never below zero. -/
  ofUInt64_not_ltZero : ∀ n, ltZero (ofUInt64 n) = false

/-! ## Data model -/

/-- The struct `Metric`: `Count` samples whose sum is `Value`. -/
structure Metric (F : Type) where
  Count : Int
  Value : F
deriving DecidableEq

/-- The type `agg`, `map[string]*Metric`. -/
abbrev agg (F : Type) := List (String × Metric F)

/-- The lookup `a[name]`. -/
def agg.get {F : Type} : agg F → String → Option (Metric F)
  | [], _ => none
  | (k, m) :: rest, name => if k = name then some m else agg.get rest name

/-- The method `agg.add`: an entry that is present gets `Count++` and
`Value += v`, an absent one is inserted as `Metric{Count: 1, Value: v}`. -/
def agg.add {F : Type} (O : Float64Ops F) : agg F → String → F → agg F
  | [], name, v => [(name, { Count := 1, Value := v })]
  | (k, m) :: rest, name, v =>
    if k = name then (k, { Count := m.Count + 1, Value := O.add m.Value v }) :: rest
    else (k, m) :: agg.add O rest name v

/-! ## Strings -/

/-- The function `strings.HasPrefix(s, p)` on the characters of the strings. -/
def hasPrefixChars : List Char → List Char → Bool
  | _, [] => true
  | [], _ :: _ => false
  | c :: s, d :: p => c == d && hasPrefixChars s p

/-- The function `strings.Contains(s, sub)` on the characters of the strings:
`sub` starts at some position of `s`. -/
def containsChars : List Char → List Char → Bool
  | [], sub => hasPrefixChars [] sub
  | c :: s, sub => hasPrefixChars (c :: s) sub || containsChars s sub

/-- The function `strings.HasPrefix`. -/
def stringsHasPrefix (s p : String) : Bool := hasPrefixChars s.toList p.toList

/-- The function `strings.Contains`. -/
def stringsContains (s sub : String) : Bool := containsChars s.toList sub.toList

/-! ## The metric sources -/

/-- One element of the result of `net.IOCounters(true)`; the byte counters are
`uint64`. -/
structure IOCountersStat where
  Name : String
  BytesRecv : Nat
  BytesSent : Nat
deriving DecidableEq

/-- One element of the result of `host.SensorsTemperatures()`. -/
structure TemperatureStat (F : Type) where
  SensorKey : String
  Temperature : F
deriving DecidableEq

/-- The test of the loop of `netTotals` that skips an interface:
`name == "lo" || strings.HasPrefix(name, "lo")` with `name` the lower-cased
interface name. -/
def netSkips {F : Type} (O : Float64Ops F) (s : IOCountersStat) : Bool :=
  let name := O.toLower s.Name
  name == "lo" || stringsHasPrefix name "lo"

/-- The function `netTotals`, applied to the two results `stats, err` of
`net.IOCounters(true)`. -/
def netTotals {F : Type} (O : Float64Ops F) (stats : List IOCountersStat)
    (err : Option String) : Nat × Nat × Bool :=
  match err with
  | some _ => (0, 0, false)
  | none =>
    let acc := stats.foldl
      (fun (acc : Nat × Nat) s =>
        if netSkips O s then acc
        else (u64Add acc.1 s.BytesRecv, u64Add acc.2 s.BytesSent))
      (0, 0)
    (acc.1, acc.2, true)

/-- The test of the loop of `cpuTempC` that selects a sensor: the lower-cased
key contains one of six words. -/
def tempMatches {F : Type} (O : Float64Ops F) (t : TemperatureStat F) : Bool :=
  let key := O.toLower t.SensorKey
  stringsContains key "cpu" || stringsContains key "package" ||
    stringsContains key "coretemp" || stringsContains key "tdie" ||
    stringsContains key "tctl" || stringsContains key "cpu_thermal"

/-- The function `cpuTempC`, applied to the two results `temps, err` of
`host.SensorsTemperatures()`. -/
def cpuTempC {F : Type} (O : Float64Ops F) (temps : List (TemperatureStat F))
    (err : Option String) : F × Bool :=
  if err.isSome || temps.length == 0 then (O.zero, false)
  else
    let acc := temps.foldl
      (fun (acc : F × Int) t =>
        if tempMatches O t then (O.add acc.1 t.Temperature, acc.2 + 1) else acc)
      (O.zero, 0)
    if acc.2 == 0 then (O.zero, false)
    else (O.div acc.1 (O.ofInt acc.2), true)

/-! ## The loop of `main` -/

/-- The command-line flags `-report`, `-host` and `-port`. -/
structure Flags where
  reportEvery : Int
  apiHost : String
  apiPort : Int

/-- The value of `endpoint`. -/
def endpoint (fl : Flags) : String :=
  "http://" ++ fl.apiHost ++ ":" ++ toString fl.apiPort ++ "/metric"

/-- The variables of `main` that live across iterations. -/
structure State (F : Type) where
  a : agg F
  lastNetRecv : Nat
  lastNetSent : Nat
  primedNet : Bool
  lastReport : Int

/-- What the environment answers during one iteration of the loop: whether the
signal channel holds a signal, the results of the four reads, the result of
`time.Since(lastReport)` in nanoseconds, the error of `postJSON` (when it is
called) and the result of the `time.Now()` that follows. -/
structure Readings (F : Type) where
  stop : Bool
  cpuPct : List F
  cpuErr : Option String
  memUsedPercent : F
  memErr : Option String
  temps : List (TemperatureStat F)
  tempsErr : Option String
  netStats : List IOCountersStat
  netErr : Option String
  since : Int
  postErr : Option String
  now : Int

/-- What one iteration does to the outside: a line written by `log.Printf`, or
a call of `postJSON` with its URL and body. -/
inductive Event (F : Type) where
  | logged : String → Event F
  | posted : String → agg F → Event F

/-- The initial values of the variables of `main`, with `t0` the result of the
first `time.Now()`. -/
def initState (F : Type) (t0 : Int) : State F :=
  { a := [], lastNetRecv := 0, lastNetSent := 0, primedNet := false, lastReport := t0 }

/-- The CPU block of the loop. -/
def sampleCpu {F : Type} (O : Float64Ops F) (a : agg F) (r : Readings F) :
    agg F × List (Event F) :=
  match r.cpuErr, r.cpuPct with
  | none, p :: _ => (agg.add O a "system.cpu.percent" p, [])
  | none, [] => (a, [])
  | some e, _ => (a, [Event.logged ("cpu.Percent error: " ++ e)])

/-- The memory block of the loop. -/
def sampleMem {F : Type} (O : Float64Ops F) (a : agg F) (r : Readings F) :
    agg F × List (Event F) :=
  match r.memErr with
  | none => (agg.add O a "system.mem.used_percent" r.memUsedPercent, [])
  | some e => (a, [Event.logged ("mem.VirtualMemory error: " ++ e)])

/-- The temperature block of the loop. -/
def sampleTemp {F : Type} (O : Float64Ops F) (a : agg F) (r : Readings F) : agg F :=
  let res := cpuTempC O r.temps r.tempsErr
  if res.2 then agg.add O a "system.cpu.temp_c" res.1 else a

/-- The clamp `if rx < 0 { rx = 0 }` applied to `float64(d)`. -/
def clampRate {F : Type} (O : Float64Ops F) (d : Nat) : F :=
  let rx := O.ofUInt64 d
  if O.ltZero rx then O.zero else rx

/-- The network block of the loop. -/
def sampleNet {F : Type} (O : Float64Ops F) (s : State F) (r : Readings F) : State F :=
  let res := netTotals O r.netStats r.netErr
  if res.2.2 then
    let a1 :=
      if s.primedNet then
        let rx := clampRate O (u64Sub res.1 s.lastNetRecv)
        let tx := clampRate O (u64Sub res.2.1 s.lastNetSent)
        agg.add O (agg.add O s.a "system.net.recv_bytes_per_sec" rx)
          "system.net.sent_bytes_per_sec" tx
      else s.a
    { s with a := a1, lastNetRecv := res.1, lastNetSent := res.2.1, primedNet := true }
  else s

/-- Part 1 of the loop body: the four sampling blocks in order. -/
def mainSample {F : Type} (O : Float64Ops F) (s : State F) (r : Readings F) :
    State F × List (Event F) :=
  let c := sampleCpu O s.a r
  let m := sampleMem O c.1 r
  let t := sampleTemp O m.1 r
  (sampleNet O { s with a := t } r, c.2 ++ m.2)

/-- The condition `time.Since(lastReport) >= time.Duration(*reportEvery)*time.Second`;
the product is an `int64`. -/
def reportDue {F : Type} (fl : Flags) (r : Readings F) : Bool :=
  decide (toInt64 (toInt64 fl.reportEvery * 1000000000) ≤ r.since)

/-- Part 2 of the loop body: when the report is due, post a non-empty
aggregate, then replace the aggregate by an empty one and store the time. -/
def mainReport {F : Type} (fl : Flags) (s : State F) (r : Readings F) :
    State F × List (Event F) :=
  if reportDue fl r then
    let ev :=
      if s.a.length > 0 then
        Event.posted (endpoint fl) s.a ::
          (match r.postErr with
           | some e => [Event.logged ("POST " ++ endpoint fl ++ " failed: " ++ e)]
           | none => [])
      else []
    ({ s with a := [], lastReport := r.now }, ev)
  else (s, [])

/-- One iteration of the loop that does not return: sample, then report. -/
def mainTick {F : Type} (O : Float64Ops F) (fl : Flags) (s : State F) (r : Readings F) :
    State F × List (Event F) :=
  let p := mainSample O s r
  let q := mainReport fl p.1 r
  (q.1, p.2 ++ q.2)

/-- The loop of `main` run against the answers of the environment, one
`Readings` per iteration: it returns at the first iteration whose signal
channel holds a signal. -/
def mainLoop {F : Type} (O : Float64Ops F) (fl : Flags) :
    State F → List (Readings F) → State F × List (Event F)
  | s, [] => (s, [])
  | s, r :: rs =>
    if r.stop then (s, [])
    else
      let p := mainTick O fl s r
      let q := mainLoop O fl p.1 rs
      (q.1, p.2 ++ q.2)

/-! ## A concrete carrier for evaluation -/

/-- The number of low bits that a natural below `2^65` loses when it is cut to
53 significant bits; the first argument bounds the number of halvings. -/
def excessBits : Nat → Nat → Nat
  | 0, _ => 0
  | k + 1, n => if n < 2 ^ 53 then 0 else excessBits k (n / 2) + 1

/-- The integer that `float64(n)` denotes for a natural `n` below `2^65` (every
`uint64` and the magnitude of every `int`): `n` rounded to 53 significant bits,
ties to the even significand. -/
def roundBinary64 (n : Nat) : Nat :=
  let e := excessBits 12 n
  let q := n / 2 ^ e
  let r := n % 2 ^ e
  let q1 := if 2 ^ e < 2 * r ∨ (2 * r = 2 ^ e ∧ q % 2 = 1) then q + 1 else q
  q1 * 2 ^ e

/-- The function `strings.ToLower` on ASCII strings. -/
def asciiLower (s : String) : String := String.mk (s.toList.map Char.toLower)

/-- A carrier for evaluating the program: `float64` values as rationals.
Conversions from integers round as binary64 does; sums and quotients are
exact, which is what binary64 computes whenever the exact result is
representable, as it is in every evaluation of this file. -/
def exactOps : Float64Ops Rat where
  zero := 0
  add x y := x + y
  div x y := x / y
  ofInt n := if n < 0 then -((roundBinary64 n.natAbs : Nat) : Rat) else ((roundBinary64 n.natAbs : Nat) : Rat)
  ofUInt64 n := ((roundBinary64 (n % u64Mod) : Nat) : Rat)
  ltZero x := decide (x < 0)
  toLower := asciiLower
  ofUInt64_not_ltZero n := by
    simp only [decide_eq_false_iff_not, not_lt]
    exact Nat.cast_nonneg _

/-- Readings of an iteration in which every read fails and no report is due
(with flags whose interval is positive); the evaluations below override the
fields they are about. -/
def quietReadings : Readings Rat :=
  { stop := false, cpuPct := [], cpuErr := some "unavailable",
    memUsedPercent := 0, memErr := some "unavailable",
    temps := [], tempsErr := some "unavailable",
    netStats := [], netErr := some "unavailable",
    since := 0, postErr := none, now := 0 }

/-- The default flags: `-report=5 -host=localhost -port=8080`. -/
def defaultFlags : Flags := { reportEvery := 5, apiHost := "localhost", apiPort := 8080 }

/-! ## Auxiliary definitions for the statements -/

/-- The entry that `agg.add` leaves under `name`, from the entry before. -/
def observe {F : Type} (O : Float64Ops F) (old : Option (Metric F)) (v : F) : Metric F :=
  match old with
  | none => { Count := 1, Value := v }
  | some m => { Count := m.Count + 1, Value := O.add m.Value v }

/-- The aggregate that reaches the network block. -/
def beforeNet {F : Type} (O : Float64Ops F) (a : agg F) (r : Readings F) : agg F :=
  sampleTemp O (sampleMem O (sampleCpu O a r).1 r).1 r

/-- Readings of an iteration in which only the network read succeeds, with one
interface "eth0" whose counters are `recv` and `sent`. -/
def netReadings (recv sent : Nat) : Readings Rat :=
  { quietReadings with
    netStats := [{ Name := "eth0", BytesRecv := recv, BytesSent := sent }], netErr := none }

/-- Readings of an iteration in which every read fails, the network read
included. -/
def failedReadings : Readings Rat := quietReadings

/-- The bodies of the calls of `postJSON` among the events, in order. -/
def posts {F : Type} : List (Event F) → List (agg F)
  | [] => []
  | Event.logged _ :: rest => posts rest
  | Event.posted _ body :: rest => body :: posts rest

/-- Readings of an iteration in which the CPU read gives `pct`, the other reads
fail, five seconds have passed since the last report, `postJSON` fails with
`postErr` and the clock then reads `now`. -/
def dueReadings (pct : List Rat) (postErr : Option String) (now : Int) : Readings Rat :=
  { quietReadings with
    cpuPct := pct, cpuErr := none, since := 5000000000, postErr := postErr, now := now }

/-- A state in the middle of a window: the aggregate holds three CPU readings
whose sum is 195. -/
def windowState : State Rat :=
  { a := [("system.cpu.percent", { Count := 3, Value := 195 })], lastNetRecv := 0,
    lastNetSent := 0, primedNet := false, lastReport := 0 }

/-- The test of the specification for a CPU sensor: the lower-cased label
contains one of "cpu", "package", "coretemp", "tdie", "tctl". -/
def cpuRelated {F : Type} (O : Float64Ops F) (t : TemperatureStat F) : Bool :=
  let key := O.toLower t.SensorKey
  stringsContains key "cpu" || stringsContains key "package" ||
    stringsContains key "coretemp" || stringsContains key "tdie" ||
    stringsContains key "tctl"

/-- The arithmetic mean of the specification in `float64`: the values summed in
order from zero, divided by their number. -/
def meanOf {F : Type} (O : Float64Ops F) (ts : List F) : F :=
  O.div (ts.foldl O.add O.zero) (O.ofInt ts.length)

/-- The temperatures of the sensors that the specification selects. -/
def cpuTemperatures {F : Type} (O : Float64Ops F) (temps : List (TemperatureStat F)) :
    List F :=
  (temps.filter (cpuRelated O)).map (fun t => t.Temperature)

/-- The sensors of the example of the specification. -/
def exampleSensors : List (TemperatureStat Rat) :=
  [{ SensorKey := "coretemp_0", Temperature := 40 },
   { SensorKey := "coretemp_1", Temperature := 42 },
   { SensorKey := "fan1", Temperature := 30 }]

/-- The loopback interfaces of the specification: the name, lower-cased, is
equal to "lo" or has the prefix "lo". -/
def isLoopback {F : Type} (O : Float64Ops F) (s : IOCountersStat) : Prop :=
  O.toLower s.Name = "lo" ∨ stringsHasPrefix (O.toLower s.Name) "lo" = true

/-- The interfaces that count: those `netTotals` does not skip. -/
def nonLoopback {F : Type} (O : Float64Ops F) (stats : List IOCountersStat) :
    List IOCountersStat :=
  stats.filter (fun s => !netSkips O s)

/-- The interfaces of the evaluation of `netTotals`: a loopback interface, an
upper-case loopback alias and two network cards, one of them close to the top
of the `uint64` range. -/
def exampleInterfaces : List IOCountersStat :=
  [{ Name := "lo", BytesRecv := 7, BytesSent := 7 },
   { Name := "Loopback0", BytesRecv := 11, BytesSent := 13 },
   { Name := "eth0", BytesRecv := 18446744073709551615, BytesSent := 20 },
   { Name := "wlan0", BytesRecv := 3, BytesSent := 30 }]

/-- The readings `r` with another answer of `cpu.Percent`. -/
def withCpu {F : Type} (r : Readings F) (pct : List F) (err : Option String) : Readings F :=
  { r with cpuPct := pct, cpuErr := err }

/-- The readings `r` with another answer of `mem.VirtualMemory`. -/
def withMem {F : Type} (r : Readings F) (usedPercent : F) (err : Option String) :
    Readings F :=
  { r with memUsedPercent := usedPercent, memErr := err }

/-- The readings `r` with another answer of `host.SensorsTemperatures`. -/
def withTemps {F : Type} (r : Readings F) (temps : List (TemperatureStat F))
    (err : Option String) : Readings F :=
  { r with temps := temps, tempsErr := err }

/-- The readings `r` with another answer of `net.IOCounters`. -/
def withNet {F : Type} (r : Readings F) (stats : List IOCountersStat)
    (err : Option String) : Readings F :=
  { r with netStats := stats, netErr := err }

/-- The number of iterations the loop has run since the last one whose report
was due (since the start when there was none), after the loop has consumed the
readings, starting from the count `n`. -/
def ticksSinceFlush {F : Type} (fl : Flags) : Nat → List (Readings F) → Nat
  | n, [] => n
  | n, r :: rs =>
    if r.stop then n
    else ticksSinceFlush fl (if reportDue fl r then 0 else n + 1) rs

/-- The two network entries of an aggregate are both absent, or both present
with the same Count, which is at most `n`. -/
def netPaired {F : Type} (a : agg F) (n : Nat) : Prop :=
  (agg.get a "system.net.recv_bytes_per_sec" = none ∧
      agg.get a "system.net.sent_bytes_per_sec" = none) ∨
    ∃ m1 m2 : Metric F,
      agg.get a "system.net.recv_bytes_per_sec" = some m1 ∧
        agg.get a "system.net.sent_bytes_per_sec" = some m2 ∧
        m1.Count = m2.Count ∧ m1.Count ≤ (n : Int)

/-! ## Lemmas on the aggregate -/

theorem get_add_same {F : Type} (O : Float64Ops F) (a : agg F) (name : String) (v : F) :
    agg.get (agg.add O a name v) name = some (observe O (agg.get a name) v) := by
  induction a with
  | nil => simp [agg.add, agg.get, observe]
  | cons p rest ih =>
    obtain ⟨k, m⟩ := p
    by_cases h : k = name
    · simp [agg.add, agg.get, observe, h]
    · simp [agg.add, agg.get, h, ih]

theorem get_add_other {F : Type} (O : Float64Ops F) (a : agg F) (name other : String) (v : F)
    (h : other ≠ name) : agg.get (agg.add O a name v) other = agg.get a other := by
  induction a with
  | nil => simp [agg.add, agg.get, h.symm]
  | cons p rest ih =>
    obtain ⟨k, m⟩ := p
    by_cases hk : k = name
    · subst hk
      simp [agg.add, agg.get, h.symm]
    · by_cases ho : k = other
      · subst ho
        simp [agg.add, agg.get, hk]
      · simp [agg.add, agg.get, hk, ho, ih]

/-- Folding `agg.add` under one name over `vs`, from an aggregate whose entry
under that name is `m`. -/
theorem get_foldl_add {F : Type} (O : Float64Ops F) (name : String) (vs : List F) :
    ∀ (a : agg F) (m : Metric F), agg.get a name = some m →
      agg.get (vs.foldl (fun b v => agg.add O b name v) a) name =
        some { Count := m.Count + vs.length, Value := vs.foldl O.add m.Value } := by
  induction vs with
  | nil => intro a m h; simpa using h
  | cons v rest ih =>
    intro a m h
    have h1 : agg.get (agg.add O a name v) name
        = some { Count := m.Count + 1, Value := O.add m.Value v } := by
      rw [get_add_same, h]; rfl
    rw [List.foldl_cons, ih _ _ h1]
    simp only [List.foldl_cons, List.length_cons, Nat.cast_add, Nat.cast_one]
    congr 2
    ring

/-! ## The sample aggregator -/

/-- C1: for every metric name and every non-empty list of values, adding the
values in order to the empty aggregate leaves under the name an entry whose
Count is the length of the list and whose Value is the left-to-right sum of the
list; the first call inserts an entry with Count 1 and the value, and a call on
an aggregate that holds the name increments Count and adds the value. -/
theorem agg_add_sequence {F : Type} (O : Float64Ops F) (name : String) (vs : List F)
    (h : vs ≠ []) :
    agg.get (vs.foldl (fun b v => agg.add O b name v) []) name
        = some { Count := vs.length, Value := vs.tail.foldl O.add (vs.head h) }
      ∧ agg.add O [] name (vs.head h) = [(name, { Count := 1, Value := vs.head h })]
      ∧ (∀ (a : agg F) (v : F), agg.get a name = none →
          agg.get (agg.add O a name v) name = some { Count := 1, Value := v })
      ∧ (∀ (a : agg F) (m : Metric F) (v : F), agg.get a name = some m →
          agg.get (agg.add O a name v) name
            = some { Count := m.Count + 1, Value := O.add m.Value v }) := by
  refine ⟨?_, rfl, ?_, ?_⟩
  · cases vs with
    | nil => exact absurd rfl h
    | cons v rest =>
      have h1 : agg.get (agg.add O [] name v) name = some { Count := 1, Value := v } := by
        simp [agg.add, agg.get]
      rw [List.foldl_cons, get_foldl_add O name rest _ _ h1]
      simp only [List.length_cons, List.tail_cons, List.head_cons, Nat.cast_add, Nat.cast_one]
      congr 2
      ring
  · intro a v ha
    rw [get_add_same, ha]; rfl
  · intro a m v ha
    rw [get_add_same, ha]; rfl

/-- The readings 60, 70, 65 under "system.cpu.percent" give Count 3 and
Value 195. -/
theorem agg_add_sequence_witness :
    ([60, 70, 65] : List Rat) ≠ [] ∧
      agg.get ([60, 70, 65].foldl (fun b v => agg.add exactOps b "system.cpu.percent" v) [])
        "system.cpu.percent" = some { Count := 3, Value := 195 } :=
  ⟨by decide,
    (agg_add_sequence exactOps "system.cpu.percent" [60, 70, 65] (by decide)).1.trans
      (by norm_num [exactOps])⟩


/-! ## Lemmas on the sampling blocks -/

theorem clampRate_eq {F : Type} (O : Float64Ops F) (d : Nat) :
    clampRate O d = O.ofUInt64 d := by
  simp [clampRate, O.ofUInt64_not_ltZero]

theorem sampleCpu_get {F : Type} (O : Float64Ops F) (a : agg F) (r : Readings F)
    (name : String) (h : name ≠ "system.cpu.percent") :
    agg.get (sampleCpu O a r).1 name = agg.get a name := by
  unfold sampleCpu
  split
  · exact get_add_other O a _ name _ h
  · rfl
  · rfl

theorem sampleMem_get {F : Type} (O : Float64Ops F) (a : agg F) (r : Readings F)
    (name : String) (h : name ≠ "system.mem.used_percent") :
    agg.get (sampleMem O a r).1 name = agg.get a name := by
  unfold sampleMem
  split
  · exact get_add_other O a _ name _ h
  · rfl

theorem sampleTemp_get {F : Type} (O : Float64Ops F) (a : agg F) (r : Readings F)
    (name : String) (h : name ≠ "system.cpu.temp_c") :
    agg.get (sampleTemp O a r) name = agg.get a name := by
  unfold sampleTemp
  dsimp only
  split
  · exact get_add_other O a _ name _ h
  · rfl

theorem mainSample_eq {F : Type} (O : Float64Ops F) (s : State F) (r : Readings F) :
    (mainSample O s r).1 = sampleNet O { s with a := beforeNet O s.a r } r := rfl

theorem beforeNet_get {F : Type} (O : Float64Ops F) (a : agg F) (r : Readings F)
    (name : String) (h1 : name ≠ "system.cpu.percent")
    (h2 : name ≠ "system.mem.used_percent") (h3 : name ≠ "system.cpu.temp_c") :
    agg.get (beforeNet O a r) name = agg.get a name := by
  unfold beforeNet
  rw [sampleTemp_get O _ r name h3, sampleMem_get O _ r name h2, sampleCpu_get O _ r name h1]

/-- The network block after a failed read changes nothing. -/
theorem sampleNet_err {F : Type} (O : Float64Ops F) (s : State F) (r : Readings F)
    (h : r.netErr ≠ none) : sampleNet O s r = s := by
  cases he : r.netErr with
  | none => exact absurd he h
  | some e => simp [sampleNet, he, netTotals]

/-- The network block after a successful read stores the totals and primes. -/
theorem sampleNet_ok_state {F : Type} (O : Float64Ops F) (s : State F) (r : Readings F)
    (h : r.netErr = none) :
    (sampleNet O s r).lastNetRecv = (netTotals O r.netStats none).1 ∧
      (sampleNet O s r).lastNetSent = (netTotals O r.netStats none).2.1 ∧
      (sampleNet O s r).primedNet = true := by
  simp [sampleNet, h, netTotals]

/-- The network block after a successful read in an un-primed state leaves the
aggregate as it is. -/
theorem sampleNet_ok_unprimed {F : Type} (O : Float64Ops F) (s : State F) (r : Readings F)
    (h : r.netErr = none) (hp : s.primedNet = false) : (sampleNet O s r).a = s.a := by
  simp [sampleNet, h, hp, netTotals]

/-- The network block after a successful read in a primed state adds one
observation to each of the two network metrics. -/
theorem sampleNet_ok_primed {F : Type} (O : Float64Ops F) (s : State F) (r : Readings F)
    (h : r.netErr = none) (hp : s.primedNet = true) :
    (sampleNet O s r).a =
      agg.add O (agg.add O s.a "system.net.recv_bytes_per_sec"
          (O.ofUInt64 (u64Sub (netTotals O r.netStats none).1 s.lastNetRecv)))
        "system.net.sent_bytes_per_sec"
        (O.ofUInt64 (u64Sub (netTotals O r.netStats none).2.1 s.lastNetSent)) := by
  simp [sampleNet, h, hp, netTotals, clampRate_eq]

theorem get_recv_after_pair {F : Type} (O : Float64Ops F) (a : agg F) (x y : F) :
    agg.get (agg.add O (agg.add O a "system.net.recv_bytes_per_sec" x)
        "system.net.sent_bytes_per_sec" y) "system.net.recv_bytes_per_sec"
      = some (observe O (agg.get a "system.net.recv_bytes_per_sec") x) := by
  rw [get_add_other O _ _ _ _ (by decide), get_add_same]

theorem get_sent_after_pair {F : Type} (O : Float64Ops F) (a : agg F) (x y : F) :
    agg.get (agg.add O (agg.add O a "system.net.recv_bytes_per_sec" x)
        "system.net.sent_bytes_per_sec" y) "system.net.sent_bytes_per_sec"
      = some (observe O (agg.get a "system.net.sent_bytes_per_sec") y) := by
  rw [get_add_same, get_add_other O _ _ _ _ (by decide)]

theorem get_other_after_pair {F : Type} (O : Float64Ops F) (a : agg F) (x y : F)
    (name : String) (h1 : name ≠ "system.net.recv_bytes_per_sec")
    (h2 : name ≠ "system.net.sent_bytes_per_sec") :
    agg.get (agg.add O (agg.add O a "system.net.recv_bytes_per_sec" x)
        "system.net.sent_bytes_per_sec" y) name = agg.get a name := by
  rw [get_add_other O _ _ _ _ h2, get_add_other O _ _ _ _ h1]

theorem u64Sub_of_le (a b : Nat) (hb : b ≤ a) (ha : a < u64Mod) : u64Sub a b = a - b := by
  have hb2 : b < u64Mod := lt_of_le_of_lt hb ha
  unfold u64Sub
  rw [Nat.mod_eq_of_lt ha, Nat.mod_eq_of_lt hb2]
  have : a + (u64Mod - b) = (a - b) + u64Mod := by omega
  rw [this, Nat.add_mod_right, Nat.mod_eq_of_lt (by omega)]

theorem u64Add_lt (a b : Nat) : u64Add a b < u64Mod :=
  Nat.mod_lt _ (by decide)

/-- The totals of `netTotals` are `uint64` values. -/
theorem netTotals_lt {F : Type} (O : Float64Ops F) (stats : List IOCountersStat)
    (err : Option String) :
    (netTotals O stats err).1 < u64Mod ∧ (netTotals O stats err).2.1 < u64Mod := by
  cases err with
  | some e =>
    have h0 : (0 : Nat) < u64Mod := by decide
    exact ⟨h0, h0⟩
  | none =>
    have key : ∀ (l : List IOCountersStat) (acc : Nat × Nat),
        acc.1 < u64Mod → acc.2 < u64Mod →
        (l.foldl (fun (acc : Nat × Nat) s =>
          if netSkips O s then acc
          else (u64Add acc.1 s.BytesRecv, u64Add acc.2 s.BytesSent)) acc).1 < u64Mod ∧
        (l.foldl (fun (acc : Nat × Nat) s =>
          if netSkips O s then acc
          else (u64Add acc.1 s.BytesRecv, u64Add acc.2 s.BytesSent)) acc).2 < u64Mod := by
      intro l
      induction l with
      | nil => intro acc h1 h2; exact ⟨h1, h2⟩
      | cons x rest ih =>
        intro acc h1 h2
        rw [List.foldl_cons]
        split
        · exact ih acc h1 h2
        · exact ih _ (u64Add_lt _ _) (u64Add_lt _ _)
    exact key stats (0, 0) (by decide) (by decide)

/-! ## Rate derivation -/

/-- C2, at previous = 100 and current = 40: the unsigned difference wraps to
2^64 - 60 before it is converted, the clamp does not fire, and the observation
added to both network metrics is float64(2^64 - 60) = 2^64 instead of 0. -/
theorem rate_wraps_when_counter_drops :
    (∀ (F : Type) (O : Float64Ops F),
        clampRate O (u64Sub 40 100) = O.ofUInt64 18446744073709551556) ∧
      agg.get (mainLoop exactOps defaultFlags (initState Rat 0)
          [netReadings 100 100, netReadings 40 40]).1.a "system.net.recv_bytes_per_sec"
        = some { Count := 1, Value := 18446744073709551616 } ∧
      agg.get (mainLoop exactOps defaultFlags (initState Rat 0)
          [netReadings 100 100, netReadings 40 40]).1.a "system.net.sent_bytes_per_sec"
        = some { Count := 1, Value := 18446744073709551616 } := by
  refine ⟨fun F O => ?_, ?_, ?_⟩
  · rw [clampRate_eq]; rfl
  · decide
  · decide

/-! ## The sampling part as a whole -/

/-- Sampling with a successful network read in a primed state: each network
metric gets one observation, the difference to the stored total. -/
theorem mainSample_net_primed {F : Type} (O : Float64Ops F) (s : State F) (r : Readings F)
    (h : r.netErr = none) (hp : s.primedNet = true) :
    agg.get (mainSample O s r).1.a "system.net.recv_bytes_per_sec"
        = some (observe O (agg.get s.a "system.net.recv_bytes_per_sec")
            (O.ofUInt64 (u64Sub (netTotals O r.netStats none).1 s.lastNetRecv))) ∧
      agg.get (mainSample O s r).1.a "system.net.sent_bytes_per_sec"
        = some (observe O (agg.get s.a "system.net.sent_bytes_per_sec")
            (O.ofUInt64 (u64Sub (netTotals O r.netStats none).2.1 s.lastNetSent))) := by
  have hp2 : ({ s with a := beforeNet O s.a r } : State F).primedNet = true := hp
  constructor
  · rw [mainSample_eq, sampleNet_ok_primed O { s with a := beforeNet O s.a r } r h hp2,
      get_recv_after_pair]
    dsimp only
    rw [beforeNet_get O _ r _ (by decide) (by decide) (by decide)]
  · rw [mainSample_eq, sampleNet_ok_primed O { s with a := beforeNet O s.a r } r h hp2,
      get_sent_after_pair]
    dsimp only
    rw [beforeNet_get O _ r _ (by decide) (by decide) (by decide)]

/-- Sampling with a failed network read, or in an un-primed state, leaves the
two network metrics as they were. -/
theorem mainSample_net_unchanged {F : Type} (O : Float64Ops F) (s : State F) (r : Readings F)
    (h : r.netErr ≠ none ∨ s.primedNet = false) :
    agg.get (mainSample O s r).1.a "system.net.recv_bytes_per_sec"
        = agg.get s.a "system.net.recv_bytes_per_sec" ∧
      agg.get (mainSample O s r).1.a "system.net.sent_bytes_per_sec"
        = agg.get s.a "system.net.sent_bytes_per_sec" := by
  have ha : (mainSample O s r).1.a = beforeNet O s.a r := by
    rw [mainSample_eq]
    by_cases he : r.netErr = none
    · rcases h with h | h
      · exact absurd he h
      · exact sampleNet_ok_unprimed O { s with a := beforeNet O s.a r } r he h
    · rw [sampleNet_err O _ r he]
  rw [ha]
  exact ⟨beforeNet_get O _ r _ (by decide) (by decide) (by decide),
    beforeNet_get O _ r _ (by decide) (by decide) (by decide)⟩

/-- Sampling with a successful network read stores the totals and primes. -/
theorem mainSample_state_ok {F : Type} (O : Float64Ops F) (s : State F) (r : Readings F)
    (h : r.netErr = none) :
    (mainSample O s r).1.lastNetRecv = (netTotals O r.netStats none).1 ∧
      (mainSample O s r).1.lastNetSent = (netTotals O r.netStats none).2.1 ∧
      (mainSample O s r).1.primedNet = true := by
  rw [mainSample_eq]
  exact sampleNet_ok_state O _ r h

/-- Sampling with a failed network read keeps the stored totals and the flag. -/
theorem mainSample_state_err {F : Type} (O : Float64Ops F) (s : State F) (r : Readings F)
    (h : r.netErr ≠ none) :
    (mainSample O s r).1.lastNetRecv = s.lastNetRecv ∧
      (mainSample O s r).1.lastNetSent = s.lastNetSent ∧
      (mainSample O s r).1.primedNet = s.primedNet := by
  rw [mainSample_eq, sampleNet_err O _ r h]
  exact ⟨rfl, rfl, rfl⟩

/-- The report part touches neither the stored totals nor the primed flag. -/
theorem mainReport_state {F : Type} (fl : Flags) (s : State F) (r : Readings F) :
    (mainReport fl s r).1.lastNetRecv = s.lastNetRecv ∧
      (mainReport fl s r).1.lastNetSent = s.lastNetSent ∧
      (mainReport fl s r).1.primedNet = s.primedNet := by
  unfold mainReport
  split <;> exact ⟨rfl, rfl, rfl⟩

/-- The aggregate after the report part: empty when the report is due, the
aggregate before otherwise. -/
theorem mainReport_a {F : Type} (fl : Flags) (s : State F) (r : Readings F) :
    (mainReport fl s r).1.a = if reportDue fl r then [] else s.a := by
  unfold mainReport
  split <;> rfl

theorem mainTick_fst {F : Type} (O : Float64Ops F) (fl : Flags) (s : State F) (r : Readings F) :
    (mainTick O fl s r).1 = (mainReport fl (mainSample O s r).1 r).1 := rfl

/-! ## Priming of the network counters -/

/-- After the first iteration with a successful network read, taken from the
initial state, the state is primed with the totals of that read and no network
entry exists. -/
theorem first_tick_primes {F : Type} (O : Float64Ops F) (fl : Flags) (t0 : Int)
    (r1 : Readings F) (h1 : r1.netErr = none) :
    agg.get (mainSample O (initState F t0) r1).1.a "system.net.recv_bytes_per_sec" = none ∧
      agg.get (mainSample O (initState F t0) r1).1.a "system.net.sent_bytes_per_sec" = none ∧
      (mainTick O fl (initState F t0) r1).1.lastNetRecv = (netTotals O r1.netStats none).1 ∧
      (mainTick O fl (initState F t0) r1).1.lastNetSent = (netTotals O r1.netStats none).2.1 ∧
      (mainTick O fl (initState F t0) r1).1.primedNet = true ∧
      agg.get (mainTick O fl (initState F t0) r1).1.a "system.net.recv_bytes_per_sec" = none ∧
      agg.get (mainTick O fl (initState F t0) r1).1.a "system.net.sent_bytes_per_sec" = none := by
  obtain ⟨hr, hs⟩ := mainSample_net_unchanged O (initState F t0) r1 (Or.inr rfl)
  have hr0 : agg.get (mainSample O (initState F t0) r1).1.a "system.net.recv_bytes_per_sec"
      = none := hr
  have hs0 : agg.get (mainSample O (initState F t0) r1).1.a "system.net.sent_bytes_per_sec"
      = none := hs
  obtain ⟨k1, k2, k3⟩ := mainSample_state_ok O (initState F t0) r1 h1
  obtain ⟨m1, m2, m3⟩ := mainReport_state fl (mainSample O (initState F t0) r1).1 r1
  refine ⟨hr0, hs0, ?_, ?_, ?_, ?_, ?_⟩
  · rw [mainTick_fst, m1, k1]
  · rw [mainTick_fst, m2, k2]
  · rw [mainTick_fst, m3, k3]
  · rw [mainTick_fst, mainReport_a]
    split
    · rfl
    · exact hr0
  · rw [mainTick_fst, mainReport_a]
    split
    · rfl
    · exact hs0

/-- C3: from the initial state, the first iteration with a successful network
read adds nothing to the two network metrics, stores the totals read and sets
the primed flag; the sampling of the next iteration, when its network read
succeeds, leaves each of the two metrics with exactly one observation, the
uint64 difference between the new total and the stored one (the plain
difference when the counter did not decrease). -/
theorem net_first_tick_primes_second_observes {F : Type} (O : Float64Ops F) (fl : Flags)
    (t0 : Int) (r1 r2 : Readings F) (h1 : r1.netErr = none) (h2 : r2.netErr = none) :
    (agg.get (mainSample O (initState F t0) r1).1.a "system.net.recv_bytes_per_sec" = none ∧
      agg.get (mainSample O (initState F t0) r1).1.a "system.net.sent_bytes_per_sec" = none ∧
      (mainTick O fl (initState F t0) r1).1.lastNetRecv = (netTotals O r1.netStats none).1 ∧
      (mainTick O fl (initState F t0) r1).1.lastNetSent = (netTotals O r1.netStats none).2.1 ∧
      (mainTick O fl (initState F t0) r1).1.primedNet = true) ∧
    (agg.get (mainSample O (mainTick O fl (initState F t0) r1).1 r2).1.a
        "system.net.recv_bytes_per_sec"
        = some { Count := 1, Value := O.ofUInt64 (u64Sub (netTotals O r2.netStats none).1
            (netTotals O r1.netStats none).1) } ∧
      agg.get (mainSample O (mainTick O fl (initState F t0) r1).1 r2).1.a
        "system.net.sent_bytes_per_sec"
        = some { Count := 1, Value := O.ofUInt64 (u64Sub (netTotals O r2.netStats none).2.1
            (netTotals O r1.netStats none).2.1) }) ∧
    ((netTotals O r1.netStats none).1 ≤ (netTotals O r2.netStats none).1 →
        u64Sub (netTotals O r2.netStats none).1 (netTotals O r1.netStats none).1
          = (netTotals O r2.netStats none).1 - (netTotals O r1.netStats none).1) ∧
    ((netTotals O r1.netStats none).2.1 ≤ (netTotals O r2.netStats none).2.1 →
        u64Sub (netTotals O r2.netStats none).2.1 (netTotals O r1.netStats none).2.1
          = (netTotals O r2.netStats none).2.1 - (netTotals O r1.netStats none).2.1) := by
  obtain ⟨hr, hs, hlr, hls, hp, hr1, hs1⟩ := first_tick_primes O fl t0 r1 h1
  refine ⟨⟨hr, hs, hlr, hls, hp⟩, ⟨?_, ?_⟩, ?_, ?_⟩
  · rw [(mainSample_net_primed O _ r2 h2 hp).1, hr1, hlr]
    rfl
  · rw [(mainSample_net_primed O _ r2 h2 hp).2, hs1, hls]
    rfl
  · intro hle
    exact u64Sub_of_le _ _ hle (netTotals_lt O r2.netStats none).1
  · intro hle
    exact u64Sub_of_le _ _ hle (netTotals_lt O r2.netStats none).2

/-- From the initial state, a first read of 1000 received / 2000 sent bytes and
a second read of 1500 / 2600 leave one observation of 500 and one of 600. -/
theorem net_first_tick_primes_second_observes_witness :
    (netReadings 1000 2000).netErr = none ∧ (netReadings 1500 2600).netErr = none ∧
      agg.get (mainSample exactOps (initState Rat 0) (netReadings 1000 2000)).1.a
        "system.net.recv_bytes_per_sec" = none ∧
      (mainTick exactOps defaultFlags (initState Rat 0) (netReadings 1000 2000)).1.lastNetRecv
        = 1000 ∧
      agg.get (mainSample exactOps
          (mainTick exactOps defaultFlags (initState Rat 0) (netReadings 1000 2000)).1
          (netReadings 1500 2600)).1.a "system.net.recv_bytes_per_sec"
        = some { Count := 1, Value := 500 } ∧
      agg.get (mainSample exactOps
          (mainTick exactOps defaultFlags (initState Rat 0) (netReadings 1000 2000)).1
          (netReadings 1500 2600)).1.a "system.net.sent_bytes_per_sec"
        = some { Count := 1, Value := 600 } := by
  have h := net_first_tick_primes_second_observes exactOps defaultFlags 0
    (netReadings 1000 2000) (netReadings 1500 2600) rfl rfl
  refine ⟨rfl, rfl, h.1.1, h.1.2.2.1.trans (by decide), h.2.1.1.trans (by decide),
    h.2.1.2.trans (by decide)⟩

/-! ## A failed network read between two successful ones -/

/-- C4 as stated fails: after a read of 1000 bytes has primed the counters and
the next network read has failed, the first successful read that follows (1500
bytes) adds an observation of 500 to each network metric. -/
theorem net_read_after_failure_observes :
    failedReadings.netErr ≠ none ∧ (netReadings 1500 1500).netErr = none ∧
      agg.get (mainLoop exactOps defaultFlags (initState Rat 0)
          [netReadings 1000 1000, failedReadings]).1.a "system.net.recv_bytes_per_sec"
        = none ∧
      agg.get (mainSample exactOps
          (mainLoop exactOps defaultFlags (initState Rat 0)
            [netReadings 1000 1000, failedReadings]).1
          (netReadings 1500 1500)).1.a "system.net.recv_bytes_per_sec"
        = some { Count := 1, Value := 500 } ∧
      agg.get (mainSample exactOps
          (mainLoop exactOps defaultFlags (initState Rat 0)
            [netReadings 1000 1000, failedReadings]).1
          (netReadings 1500 1500)).1.a "system.net.sent_bytes_per_sec"
        = some { Count := 1, Value := 500 } := by
  refine ⟨by decide, rfl, by decide, by decide, by decide⟩

/-- C4, amended: an iteration whose network read fails adds nothing to the two
network metrics and keeps the stored totals and the primed flag. The first
successful read after it stores its totals and primes; it adds nothing to the
two metrics when the state was un-primed before the failure, and when the state
was primed it adds to each metric one observation, the uint64 difference
between the new total and the total stored before the failure. -/
theorem net_read_after_failure {F : Type} (O : Float64Ops F) (fl : Flags) (s : State F)
    (rf rk : Readings F) (hf : rf.netErr ≠ none) (hk : rk.netErr = none) :
    (agg.get (mainSample O s rf).1.a "system.net.recv_bytes_per_sec"
        = agg.get s.a "system.net.recv_bytes_per_sec" ∧
      agg.get (mainSample O s rf).1.a "system.net.sent_bytes_per_sec"
        = agg.get s.a "system.net.sent_bytes_per_sec" ∧
      (mainTick O fl s rf).1.lastNetRecv = s.lastNetRecv ∧
      (mainTick O fl s rf).1.lastNetSent = s.lastNetSent ∧
      (mainTick O fl s rf).1.primedNet = s.primedNet) ∧
    ((mainSample O (mainTick O fl s rf).1 rk).1.lastNetRecv = (netTotals O rk.netStats none).1 ∧
      (mainSample O (mainTick O fl s rf).1 rk).1.lastNetSent
        = (netTotals O rk.netStats none).2.1 ∧
      (mainSample O (mainTick O fl s rf).1 rk).1.primedNet = true) ∧
    (s.primedNet = false →
      agg.get (mainSample O (mainTick O fl s rf).1 rk).1.a "system.net.recv_bytes_per_sec"
          = agg.get (mainTick O fl s rf).1.a "system.net.recv_bytes_per_sec" ∧
        agg.get (mainSample O (mainTick O fl s rf).1 rk).1.a "system.net.sent_bytes_per_sec"
          = agg.get (mainTick O fl s rf).1.a "system.net.sent_bytes_per_sec") ∧
    (s.primedNet = true →
      agg.get (mainSample O (mainTick O fl s rf).1 rk).1.a "system.net.recv_bytes_per_sec"
          = some (observe O
              (agg.get (mainTick O fl s rf).1.a "system.net.recv_bytes_per_sec")
              (O.ofUInt64 (u64Sub (netTotals O rk.netStats none).1 s.lastNetRecv))) ∧
        agg.get (mainSample O (mainTick O fl s rf).1 rk).1.a "system.net.sent_bytes_per_sec"
          = some (observe O
              (agg.get (mainTick O fl s rf).1.a "system.net.sent_bytes_per_sec")
              (O.ofUInt64 (u64Sub (netTotals O rk.netStats none).2.1 s.lastNetSent)))) := by
  obtain ⟨k1, k2, k3⟩ := mainSample_state_err O s rf hf
  obtain ⟨m1, m2, m3⟩ := mainReport_state fl (mainSample O s rf).1 rf
  have e1 : (mainTick O fl s rf).1.lastNetRecv = s.lastNetRecv := by
    rw [mainTick_fst, m1, k1]
  have e2 : (mainTick O fl s rf).1.lastNetSent = s.lastNetSent := by
    rw [mainTick_fst, m2, k2]
  have e3 : (mainTick O fl s rf).1.primedNet = s.primedNet := by
    rw [mainTick_fst, m3, k3]
  obtain ⟨u1, u2⟩ := mainSample_net_unchanged O s rf (Or.inl hf)
  refine ⟨⟨u1, u2, e1, e2, e3⟩, mainSample_state_ok O _ rk hk, ?_, ?_⟩
  · intro hp
    exact mainSample_net_unchanged O _ rk (Or.inr (e3.trans hp))
  · intro hp
    have h := mainSample_net_primed O (mainTick O fl s rf).1 rk hk (e3.trans hp)
    rw [e1, e2] at h
    exact h

/-- A state primed at 1000 bytes, a failed read, then a read of 1500 bytes:
one observation of 500 under each network metric. -/
theorem net_read_after_failure_witness :
    failedReadings.netErr ≠ none ∧ (netReadings 1500 1500).netErr = none ∧
      agg.get (mainSample exactOps
          (mainTick exactOps defaultFlags
            { a := [], lastNetRecv := 1000, lastNetSent := 1000, primedNet := true,
              lastReport := 0 } failedReadings).1
          (netReadings 1500 1500)).1.a "system.net.recv_bytes_per_sec"
        = some { Count := 1, Value := 500 } :=
  ⟨by decide, rfl,
    ((net_read_after_failure exactOps defaultFlags
      { a := [], lastNetRecv := 1000, lastNetSent := 1000, primedNet := true, lastReport := 0 }
      failedReadings (netReadings 1500 1500) (by decide) rfl).2.2.2 rfl).1.trans (by decide)⟩

/-! ## The report part -/

theorem posts_append {F : Type} (xs ys : List (Event F)) :
    posts (xs ++ ys) = posts xs ++ posts ys := by
  induction xs with
  | nil => rfl
  | cons e rest ih =>
    cases e with
    | logged m => simpa [posts] using ih
    | posted u b => simp [posts, ih]

/-- The sampling part never calls `postJSON`. -/
theorem posts_mainSample {F : Type} (O : Float64Ops F) (s : State F) (r : Readings F) :
    posts (mainSample O s r).2 = [] := by
  have hc : posts (sampleCpu O s.a r).2 = [] := by
    unfold sampleCpu
    split <;> rfl
  have hm : posts (sampleMem O (sampleCpu O s.a r).1 r).2 = [] := by
    unfold sampleMem
    split <;> rfl
  show posts ((sampleCpu O s.a r).2 ++ (sampleMem O (sampleCpu O s.a r).1 r).2) = []
  rw [posts_append, hc, hm]
  rfl

/-- The calls of `postJSON` of the report part. -/
theorem posts_mainReport {F : Type} (fl : Flags) (s : State F) (r : Readings F) :
    posts (mainReport fl s r).2 = if reportDue fl r && !s.a.isEmpty then [s.a] else [] := by
  unfold mainReport
  by_cases hd : reportDue fl r = true
  · cases ha : s.a with
    | nil => simp [hd, posts]
    | cons p rest =>
      cases hp : r.postErr <;> simp [hd, posts]
  · simp [hd, posts]

/-- C5: in an iteration whose report is due, the report part calls postJSON not
at all when the aggregate (as the sampling of the iteration left it) is empty,
and exactly once, with the endpoint and that aggregate, when it is not; this is
so for the report part alone and for the whole iteration. -/
theorem flush_posts_iff_nonempty {F : Type} (O : Float64Ops F) (fl : Flags) (s : State F)
    (r : Readings F) (hdue : reportDue fl r = true) :
    (s.a = [] → posts (mainReport fl s r).2 = []) ∧
      (s.a ≠ [] → posts (mainReport fl s r).2 = [s.a] ∧
        (mainReport fl s r).2.filter (fun e => match e with
            | Event.posted _ _ => true
            | Event.logged _ => false)
          = [Event.posted (endpoint fl) s.a]) ∧
      ((mainSample O s r).1.a = [] → posts (mainTick O fl s r).2 = []) ∧
      ((mainSample O s r).1.a ≠ [] →
        posts (mainTick O fl s r).2 = [(mainSample O s r).1.a]) := by
  have ht : posts (mainTick O fl s r).2 = posts (mainReport fl (mainSample O s r).1 r).2 := by
    show posts ((mainSample O s r).2 ++ (mainReport fl (mainSample O s r).1 r).2) = _
    rw [posts_append, posts_mainSample]
    rfl
  refine ⟨?_, ?_, ?_, ?_⟩
  · intro ha
    rw [posts_mainReport]
    simp [ha]
  · intro ha
    refine ⟨?_, ?_⟩
    · rw [posts_mainReport]
      simp [ha, hdue]
    · unfold mainReport
      cases hs : s.a with
      | nil => exact absurd hs ha
      | cons p rest =>
        cases hp : r.postErr <;> simp [hdue]
  · intro ha
    rw [ht, posts_mainReport]
    simp [ha]
  · intro ha
    rw [ht, posts_mainReport]
    simp [ha, hdue]

/-- A due report with one CPU reading posts the aggregate of that reading
once. -/
theorem flush_posts_iff_nonempty_witness :
    reportDue defaultFlags (dueReadings [60] none 7) = true ∧
      posts (mainTick exactOps defaultFlags (initState Rat 0) (dueReadings [60] none 7)).2
        = [[("system.cpu.percent", { Count := 1, Value := 60 })]] ∧
      posts (mainTick exactOps defaultFlags (initState Rat 0) (dueReadings [] none 7)).2
        = [] :=
  ⟨by decide,
    ((flush_posts_iff_nonempty exactOps defaultFlags (initState Rat 0)
      (dueReadings [60] none 7) (by decide)).2.2.2 (by decide)).trans (by decide),
    (flush_posts_iff_nonempty exactOps defaultFlags (initState Rat 0)
      (dueReadings [] none 7) (by decide)).2.2.1 (by decide)⟩

/-- C6: when the report is due, whatever the aggregate holds and whatever
postJSON answers, the report part leaves an empty aggregate and stores the
clock reading as the time of the last report; the next add on that aggregate
creates, under every name, an entry with Count 1 and the value added. -/
theorem flush_resets {F : Type} (O : Float64Ops F) (fl : Flags) (s : State F)
    (r : Readings F) (hdue : reportDue fl r = true) :
    (mainReport fl s r).1.a = [] ∧
      (mainReport fl s r).1.lastReport = r.now ∧
      (mainTick O fl s r).1.a = [] ∧
      (mainTick O fl s r).1.lastReport = r.now ∧
      (∀ (name : String) (v : F),
        agg.get (agg.add O (mainReport fl s r).1.a name v) name
          = some { Count := 1, Value := v }) ∧
      (∀ (name : String) (v : F),
        agg.get (agg.add O (mainTick O fl s r).1.a name v) name
          = some { Count := 1, Value := v }) := by
  have h1 : (mainReport fl s r).1.a = [] := by
    rw [mainReport_a]; simp [hdue]
  have h2 : ∀ s1 : State F, (mainReport fl s1 r).1.lastReport = r.now := by
    intro s1
    unfold mainReport
    simp [hdue]
  have h3 : (mainTick O fl s r).1.a = [] := by
    rw [mainTick_fst, mainReport_a]; simp [hdue]
  refine ⟨h1, h2 s, h3, ?_, ?_, ?_⟩
  · rw [mainTick_fst]; exact h2 _
  · intro name v
    rw [h1]
    simp [agg.add, agg.get]
  · intro name v
    rw [h3]
    simp [agg.add, agg.get]

/-- A due report whose delivery fails, on an aggregate that holds a CPU entry
with Count 3: the aggregate is empty afterwards and the next CPU reading gets
Count 1. -/
theorem flush_resets_witness :
    reportDue defaultFlags (dueReadings [] (some "connection refused") 7) = true ∧
      (mainReport defaultFlags
          windowState
          (dueReadings [] (some "connection refused") 7)).1.a = [] ∧
      agg.get (agg.add exactOps (mainReport defaultFlags
          windowState
          (dueReadings [] (some "connection refused") 7)).1.a "system.cpu.percent" 60)
        "system.cpu.percent" = some { Count := 1, Value := 60 } :=
  ⟨by decide,
    (flush_resets exactOps defaultFlags windowState (dueReadings [] (some "connection refused") 7)
      (by decide)).1,
    (flush_resets exactOps defaultFlags windowState (dueReadings [] (some "connection refused") 7)
      (by decide)).2.2.2.2.1 "system.cpu.percent" 60⟩

/-! ## The CPU temperature -/

theorem hasPrefixChars_of_append (p q : List Char) :
    ∀ s : List Char, hasPrefixChars s (p ++ q) = true → hasPrefixChars s p = true := by
  induction p with
  | nil => intro s _; cases s <;> rfl
  | cons d p ih =>
    intro s h
    cases s with
    | nil => simp [hasPrefixChars] at h
    | cons c s =>
      simp only [List.cons_append, hasPrefixChars, Bool.and_eq_true] at h ⊢
      exact ⟨h.1, ih s h.2⟩

theorem containsChars_of_append (p q : List Char) :
    ∀ s : List Char, containsChars s (p ++ q) = true → containsChars s p = true := by
  intro s
  induction s with
  | nil =>
    intro h
    exact hasPrefixChars_of_append p q [] h
  | cons c s ih =>
    intro h
    simp only [containsChars, Bool.or_eq_true] at h ⊢
    rcases h with h | h
    · exact Or.inl (hasPrefixChars_of_append p q _ h)
    · exact Or.inr (ih h)

/-- A string that contains "cpu_thermal" contains "cpu". -/
theorem contains_cpu_of_cpu_thermal (key : String) :
    stringsContains key "cpu_thermal" = true → stringsContains key "cpu" = true := by
  intro h
  have e : "cpu_thermal".toList = "cpu".toList ++ "_thermal".toList := by decide
  unfold stringsContains at h ⊢
  rw [e] at h
  exact containsChars_of_append _ _ _ h

/-- The six words of the code select the sensors that the five words of the
specification select. -/
theorem tempMatches_eq_cpuRelated {F : Type} (O : Float64Ops F) (t : TemperatureStat F) :
    tempMatches O t = cpuRelated O t := by
  unfold tempMatches cpuRelated
  dsimp only
  cases h6 : stringsContains (O.toLower t.SensorKey) "cpu_thermal" with
  | false => simp
  | true =>
    have h1 := contains_cpu_of_cpu_thermal _ h6
    simp [h1]

/-- The loop of `cpuTempC` from any accumulator. -/
theorem cpuTempC_loop {F : Type} (O : Float64Ops F) (temps : List (TemperatureStat F)) :
    ∀ (sum : F) (n : Int),
      temps.foldl
          (fun (acc : F × Int) t =>
            if tempMatches O t then (O.add acc.1 t.Temperature, acc.2 + 1) else acc)
          (sum, n)
        = ((cpuTemperatures O temps).foldl O.add sum,
            n + ((cpuTemperatures O temps).length : Int)) := by
  induction temps with
  | nil => intro sum n; simp [cpuTemperatures]
  | cons t rest ih =>
    intro sum n
    rw [List.foldl_cons]
    by_cases h : cpuRelated O t = true
    · have h2 : tempMatches O t = true := by rw [tempMatches_eq_cpuRelated]; exact h
      rw [if_pos h2, ih]
      simp only [cpuTemperatures, List.filter_cons, h, if_true, List.map_cons,
        List.foldl_cons, List.length_cons, Nat.cast_add, Nat.cast_one]
      congr 1
      ring
    · have h2 : ¬ tempMatches O t = true := by rw [tempMatches_eq_cpuRelated]; exact h
      rw [if_neg h2, ih]
      simp [cpuTemperatures, List.filter_cons, h]

/-- The mean of 40 and 42 in the carrier of the evaluations. -/
theorem meanOf_example : meanOf exactOps [40, 42] = 41 := by
  have h2 : roundBinary64 2 = 2 := by decide
  simp only [meanOf, exactOps, List.foldl_cons, List.foldl_nil, List.length_cons,
    List.length_nil]
  norm_num [h2]

/-- C7: after a successful sensor read, `cpuTempC` returns the arithmetic mean
of the temperatures of exactly the sensors whose lower-cased label contains one
of "cpu", "package", "coretemp", "tdie", "tctl", with true, when there is such
a sensor, and (0, false) when there is none (in particular for the empty
list); the iteration then adds one observation of that mean to
system.cpu.temp_c, respectively none. The sensors coretemp_0 = 40,
coretemp_1 = 42, fan1 = 30 give the mean 41 of the first two. -/
theorem cpuTempC_mean_of_cpu_sensors :
    (∀ (F : Type) (O : Float64Ops F) (temps : List (TemperatureStat F)),
        (cpuTemperatures O temps ≠ [] →
          cpuTempC O temps none = (meanOf O (cpuTemperatures O temps), true)) ∧
        (cpuTemperatures O temps = [] → cpuTempC O temps none = (O.zero, false)) ∧
        cpuTempC O [] none = (O.zero, false)) ∧
      (∀ (F : Type) (O : Float64Ops F) (a : agg F) (r : Readings F), r.tempsErr = none →
        (cpuTemperatures O r.temps ≠ [] →
          sampleTemp O a r
            = agg.add O a "system.cpu.temp_c" (meanOf O (cpuTemperatures O r.temps))) ∧
        (cpuTemperatures O r.temps = [] → sampleTemp O a r = a)) ∧
      cpuTemperatures exactOps exampleSensors = [40, 42] ∧
      cpuTempC exactOps exampleSensors none = (41, true) ∧
      agg.get (sampleTemp exactOps []
          { quietReadings with temps := exampleSensors, tempsErr := none })
        "system.cpu.temp_c" = some { Count := 1, Value := 41 } := by
  have main : ∀ (F : Type) (O : Float64Ops F) (temps : List (TemperatureStat F)),
      (cpuTemperatures O temps ≠ [] →
        cpuTempC O temps none = (meanOf O (cpuTemperatures O temps), true)) ∧
      (cpuTemperatures O temps = [] → cpuTempC O temps none = (O.zero, false)) := by
    intro F O temps
    constructor
    · intro hne
      have hlen : temps.length ≠ 0 := by
        intro h0
        have : temps = [] := List.length_eq_zero.mp h0
        subst this
        exact hne rfl
      have hpos : ((cpuTemperatures O temps).length : Int) ≠ 0 := by
        intro h0
        exact hne (List.length_eq_zero.mp (by exact_mod_cast h0))
      unfold cpuTempC
      simp only [Option.isSome_none, Bool.false_or, beq_iff_eq, hlen, if_false]
      rw [cpuTempC_loop]
      simp only [zero_add, beq_iff_eq, hpos, if_false]
      rfl
    · intro he
      unfold cpuTempC
      split
      · rfl
      · rw [cpuTempC_loop, he]
        simp
  have hex : cpuTemperatures exactOps exampleSensors = [40, 42] := by decide
  have hc : cpuTempC exactOps exampleSensors none = (41, true) := by
    rw [(main Rat exactOps exampleSensors).1 (by rw [hex]; decide), hex, meanOf_example]
  refine ⟨fun F O temps => ⟨(main F O temps).1, (main F O temps).2, rfl⟩,
    ?_, hex, hc, ?_⟩
  swap
  · unfold sampleTemp
    dsimp only
    rw [hc]
    decide
  intro F O a r herr
  constructor
  · intro hne
    unfold sampleTemp
    rw [herr, (main F O r.temps).1 hne]
    rfl
  · intro he
    unfold sampleTemp
    rw [herr, (main F O r.temps).2 he]
    rfl

/-! ## The network totals -/

/-- The loop of `netTotals` from any accumulator, modulo `2^64`. -/
theorem netTotals_loop {F : Type} (O : Float64Ops F) (stats : List IOCountersStat) :
    ∀ acc : Nat × Nat,
      (stats.foldl (fun (acc : Nat × Nat) s =>
          if netSkips O s then acc
          else (u64Add acc.1 s.BytesRecv, u64Add acc.2 s.BytesSent)) acc).1 % u64Mod
        = (acc.1 + ((nonLoopback O stats).map (fun s => s.BytesRecv)).sum) % u64Mod ∧
      (stats.foldl (fun (acc : Nat × Nat) s =>
          if netSkips O s then acc
          else (u64Add acc.1 s.BytesRecv, u64Add acc.2 s.BytesSent)) acc).2 % u64Mod
        = (acc.2 + ((nonLoopback O stats).map (fun s => s.BytesSent)).sum) % u64Mod := by
  induction stats with
  | nil => intro acc; simp [nonLoopback]
  | cons x rest ih =>
    intro acc
    rw [List.foldl_cons]
    by_cases h : netSkips O x = true
    · rw [if_pos h]
      have e : nonLoopback O (x :: rest) = nonLoopback O rest := by
        simp [nonLoopback, List.filter_cons, h]
      rw [e]
      exact ih acc
    · rw [if_neg h]
      have e : nonLoopback O (x :: rest) = x :: nonLoopback O rest := by
        simp [nonLoopback, List.filter_cons, h]
      rw [e]
      obtain ⟨i1, i2⟩ := ih (u64Add acc.1 x.BytesRecv, u64Add acc.2 x.BytesSent)
      simp only [List.map_cons, List.sum_cons]
      constructor
      · rw [i1]
        show ((acc.1 + x.BytesRecv) % u64Mod + _) % u64Mod = _
        rw [Nat.mod_add_mod, Nat.add_assoc]
      · rw [i2]
        show ((acc.2 + x.BytesSent) % u64Mod + _) % u64Mod = _
        rw [Nat.mod_add_mod, Nat.add_assoc]

/-- C8: after a successful read, `netTotals` returns true with the sums modulo
2^64 of BytesRecv and of BytesSent over exactly the interfaces it does not
skip; it skips an interface if and only if the lower-cased name is equal to or
prefixed by "lo"; a list without other interfaces, the empty one included,
gives (0, 0, true). -/
theorem netTotals_sums_non_loopback :
    (∀ (F : Type) (O : Float64Ops F) (stats : List IOCountersStat),
        netTotals O stats none
          = (((nonLoopback O stats).map (fun s => s.BytesRecv)).sum % 2 ^ 64,
              ((nonLoopback O stats).map (fun s => s.BytesSent)).sum % 2 ^ 64, true) ∧
        (∀ s : IOCountersStat, s ∈ nonLoopback O stats ↔ s ∈ stats ∧ ¬ isLoopback O s) ∧
        ((∀ s ∈ stats, isLoopback O s) → netTotals O stats none = (0, 0, true)) ∧
        netTotals O [] none = (0, 0, true)) ∧
      netTotals exactOps exampleInterfaces none = (2, 50, true) := by
  have hskip : ∀ (F : Type) (O : Float64Ops F) (s : IOCountersStat),
      netSkips O s = true ↔ isLoopback O s := by
    intro F O s
    simp [netSkips, isLoopback]
  have hmain : ∀ (F : Type) (O : Float64Ops F) (stats : List IOCountersStat),
      netTotals O stats none
        = (((nonLoopback O stats).map (fun s => s.BytesRecv)).sum % 2 ^ 64,
            ((nonLoopback O stats).map (fun s => s.BytesSent)).sum % 2 ^ 64, true) := by
    intro F O stats
    obtain ⟨l1, l2⟩ := netTotals_lt O stats none
    obtain ⟨m1, m2⟩ := netTotals_loop O stats (0, 0)
    have e1 : (netTotals O stats none).1
        = ((nonLoopback O stats).map (fun s => s.BytesRecv)).sum % 2 ^ 64 := by
      rw [← Nat.mod_eq_of_lt l1]
      simpa [netTotals, u64Mod] using m1
    have e2 : (netTotals O stats none).2.1
        = ((nonLoopback O stats).map (fun s => s.BytesSent)).sum % 2 ^ 64 := by
      rw [← Nat.mod_eq_of_lt l2]
      simpa [netTotals, u64Mod] using m2
    have e3 : (netTotals O stats none).2.2 = true := rfl
    exact Prod.ext e1 (Prod.ext e2 e3)
  refine ⟨fun F O stats => ⟨hmain F O stats, ?_, ?_, rfl⟩, by decide⟩
  · intro s
    simp only [nonLoopback, List.mem_filter, Bool.not_eq_true', ← hskip F O s,
      Bool.not_eq_true]
  · intro hall
    have hnil : nonLoopback O stats = [] := by
      unfold nonLoopback
      rw [List.filter_eq_nil_iff]
      intro s hs
      simp [(hskip F O s).mpr (hall s hs)]
    rw [hmain, hnil]
    rfl

/-! ## Independence of the four families -/

/-- What `agg.add` leaves under a name depends on the aggregate only through
the entry under that name. -/
theorem get_add_congr {F : Type} (O : Float64Ops F) (a b : agg F) (k n : String) (v : F)
    (h : agg.get a n = agg.get b n) :
    agg.get (agg.add O a k v) n = agg.get (agg.add O b k v) n := by
  by_cases hn : n = k
  · subst hn
    rw [get_add_same, get_add_same, h]
  · rw [get_add_other O a k n v hn, get_add_other O b k n v hn, h]

theorem sampleCpu_congr {F : Type} (O : Float64Ops F) (a b : agg F) (r1 r2 : Readings F)
    (n : String) (hp : r1.cpuPct = r2.cpuPct) (he : r1.cpuErr = r2.cpuErr)
    (h : agg.get a n = agg.get b n) :
    agg.get (sampleCpu O a r1).1 n = agg.get (sampleCpu O b r2).1 n := by
  unfold sampleCpu
  rw [hp, he]
  cases r2.cpuErr with
  | some e => exact h
  | none =>
    cases r2.cpuPct with
    | nil => exact h
    | cons p rest => exact get_add_congr O a b _ n p h

theorem sampleMem_congr {F : Type} (O : Float64Ops F) (a b : agg F) (r1 r2 : Readings F)
    (n : String) (hp : r1.memUsedPercent = r2.memUsedPercent) (he : r1.memErr = r2.memErr)
    (h : agg.get a n = agg.get b n) :
    agg.get (sampleMem O a r1).1 n = agg.get (sampleMem O b r2).1 n := by
  unfold sampleMem
  rw [hp, he]
  cases r2.memErr with
  | some e => exact h
  | none => exact get_add_congr O a b _ n _ h

theorem sampleTemp_congr {F : Type} (O : Float64Ops F) (a b : agg F) (r1 r2 : Readings F)
    (n : String) (hp : r1.temps = r2.temps) (he : r1.tempsErr = r2.tempsErr)
    (h : agg.get a n = agg.get b n) :
    agg.get (sampleTemp O a r1) n = agg.get (sampleTemp O b r2) n := by
  unfold sampleTemp
  rw [hp, he]
  dsimp only
  cases (cpuTempC O r2.temps r2.tempsErr).2 with
  | false => exact h
  | true => exact get_add_congr O a b _ n _ h

theorem sampleNet_congr {F : Type} (O : Float64Ops F) (s1 s2 : State F) (r1 r2 : Readings F)
    (n : String) (hp : r1.netStats = r2.netStats) (he : r1.netErr = r2.netErr)
    (h1 : s1.lastNetRecv = s2.lastNetRecv) (h2 : s1.lastNetSent = s2.lastNetSent)
    (h3 : s1.primedNet = s2.primedNet) (h : agg.get s1.a n = agg.get s2.a n) :
    agg.get (sampleNet O s1 r1).a n = agg.get (sampleNet O s2 r2).a n := by
  unfold sampleNet
  rw [hp, he, h1, h2, h3]
  dsimp only
  cases (netTotals O r2.netStats r2.netErr).2.2 with
  | false => exact h
  | true =>
    cases s2.primedNet with
    | false => exact h
    | true => exact get_add_congr O _ _ _ n _ (get_add_congr O _ _ _ n _ h)

/-- The network block leaves every other entry as it was. -/
theorem sampleNet_get {F : Type} (O : Float64Ops F) (s : State F) (r : Readings F)
    (n : String) (h1 : n ≠ "system.net.recv_bytes_per_sec")
    (h2 : n ≠ "system.net.sent_bytes_per_sec") :
    agg.get (sampleNet O s r).a n = agg.get s.a n := by
  unfold sampleNet
  dsimp only
  cases (netTotals O r.netStats r.netErr).2.2 with
  | false => rfl
  | true =>
    cases s.primedNet with
    | false => rfl
    | true => exact get_other_after_pair O s.a _ _ n h1 h2

/-- The stored totals and the flag after sampling depend on the state and on
the network read only. -/
theorem mainSample_net_state {F : Type} (O : Float64Ops F) (s : State F) (r1 r2 : Readings F)
    (hp : r1.netStats = r2.netStats) (he : r1.netErr = r2.netErr) :
    (mainSample O s r1).1.lastNetRecv = (mainSample O s r2).1.lastNetRecv ∧
      (mainSample O s r1).1.lastNetSent = (mainSample O s r2).1.lastNetSent ∧
      (mainSample O s r1).1.primedNet = (mainSample O s r2).1.primedNet := by
  rw [mainSample_eq, mainSample_eq]
  unfold sampleNet
  rw [hp, he]
  dsimp only
  cases (netTotals O r2.netStats r2.netErr).2.2 with
  | false => exact ⟨rfl, rfl, rfl⟩
  | true => exact ⟨rfl, rfl, rfl⟩

/-- Another answer of `cpu.Percent` changes no entry but the CPU one. -/
theorem mainSample_withCpu {F : Type} (O : Float64Ops F) (s : State F) (r : Readings F)
    (c : List F) (e : Option String) (n : String) (hn : n ≠ "system.cpu.percent") :
    agg.get (mainSample O s (withCpu r c e)).1.a n = agg.get (mainSample O s r).1.a n := by
  rw [mainSample_eq, mainSample_eq]
  refine sampleNet_congr O _ _ _ _ n rfl rfl rfl rfl rfl ?_
  refine sampleTemp_congr O _ _ _ _ n rfl rfl ?_
  refine sampleMem_congr O _ _ _ _ n rfl rfl ?_
  rw [sampleCpu_get O _ _ n hn, sampleCpu_get O _ _ n hn]

/-- Another answer of `mem.VirtualMemory` changes no entry but the memory
one. -/
theorem mainSample_withMem {F : Type} (O : Float64Ops F) (s : State F) (r : Readings F)
    (v : F) (e : Option String) (n : String) (hn : n ≠ "system.mem.used_percent") :
    agg.get (mainSample O s (withMem r v e)).1.a n = agg.get (mainSample O s r).1.a n := by
  rw [mainSample_eq, mainSample_eq]
  refine sampleNet_congr O _ _ _ _ n rfl rfl rfl rfl rfl ?_
  refine sampleTemp_congr O _ _ _ _ n rfl rfl ?_
  show agg.get (sampleMem O (sampleCpu O s.a r).1 (withMem r v e)).1 n = _
  rw [sampleMem_get O _ _ n hn, sampleMem_get O _ _ n hn]

/-- Another answer of `host.SensorsTemperatures` changes no entry but the
temperature one. -/
theorem mainSample_withTemps {F : Type} (O : Float64Ops F) (s : State F) (r : Readings F)
    (t : List (TemperatureStat F)) (e : Option String) (n : String)
    (hn : n ≠ "system.cpu.temp_c") :
    agg.get (mainSample O s (withTemps r t e)).1.a n = agg.get (mainSample O s r).1.a n := by
  rw [mainSample_eq, mainSample_eq]
  refine sampleNet_congr O _ _ _ _ n rfl rfl rfl rfl rfl ?_
  show agg.get (sampleTemp O (sampleMem O (sampleCpu O s.a r).1 r).1 (withTemps r t e)) n = _
  unfold beforeNet
  rw [sampleTemp_get O _ _ n hn, sampleTemp_get O _ _ n hn]

/-- Another answer of `net.IOCounters` changes no entry but the two network
ones. -/
theorem mainSample_withNet {F : Type} (O : Float64Ops F) (s : State F) (r : Readings F)
    (st : List IOCountersStat) (e : Option String) (n : String)
    (h1 : n ≠ "system.net.recv_bytes_per_sec") (h2 : n ≠ "system.net.sent_bytes_per_sec") :
    agg.get (mainSample O s (withNet r st e)).1.a n = agg.get (mainSample O s r).1.a n := by
  rw [mainSample_eq, mainSample_eq, sampleNet_get O _ _ n h1 h2, sampleNet_get O _ _ n h1 h2]
  rfl

/-- The sampling part does not touch the time of the last report. -/
theorem mainSample_lastReport {F : Type} (O : Float64Ops F) (s : State F) (r : Readings F) :
    (mainSample O s r).1.lastReport = s.lastReport := by
  rw [mainSample_eq]
  unfold sampleNet
  dsimp only
  cases (netTotals O r.netStats r.netErr).2.2 <;> rfl

/-- The CPU entry after sampling is the one the CPU block leaves. -/
theorem mainSample_get_cpu {F : Type} (O : Float64Ops F) (s : State F) (r : Readings F) :
    agg.get (mainSample O s r).1.a "system.cpu.percent"
      = agg.get (sampleCpu O s.a r).1 "system.cpu.percent" := by
  rw [mainSample_eq, sampleNet_get O _ r _ (by decide) (by decide)]
  show agg.get (sampleTemp O (sampleMem O (sampleCpu O s.a r).1 r).1 r) _ = _
  rw [sampleTemp_get O _ r _ (by decide), sampleMem_get O _ r _ (by decide)]

/-- The memory entry after sampling is the one the memory block leaves. -/
theorem mainSample_get_mem {F : Type} (O : Float64Ops F) (s : State F) (r : Readings F) :
    agg.get (mainSample O s r).1.a "system.mem.used_percent"
      = agg.get (sampleMem O (sampleCpu O s.a r).1 r).1 "system.mem.used_percent" := by
  rw [mainSample_eq, sampleNet_get O _ r _ (by decide) (by decide)]
  show agg.get (sampleTemp O (sampleMem O (sampleCpu O s.a r).1 r).1 r) _ = _
  rw [sampleTemp_get O _ r _ (by decide)]

/-- The temperature entry after sampling is the one the temperature block
leaves. -/
theorem mainSample_get_temp {F : Type} (O : Float64Ops F) (s : State F) (r : Readings F) :
    agg.get (mainSample O s r).1.a "system.cpu.temp_c"
      = agg.get (sampleTemp O (sampleMem O (sampleCpu O s.a r).1 r).1 r)
          "system.cpu.temp_c" := by
  rw [mainSample_eq, sampleNet_get O _ r _ (by decide) (by decide)]
  rfl

/-- C9: in one iteration each of the four families is best-effort on its own.
A family whose read fails leaves its entries (and, for the network, the stored
totals and the flag) as they were; what a family reads, or whether its read
fails, changes no entry of another family and not the stored network state;
the condition of the report does not depend on any read; and whatever fails,
the iteration runs to its end: the report part resets the aggregate and stores
the time exactly when the report is due. -/
theorem families_best_effort {F : Type} (O : Float64Ops F) (fl : Flags) (s : State F)
    (r : Readings F) :
    ((r.cpuErr ≠ none ∨ r.cpuPct = [] →
        agg.get (mainSample O s r).1.a "system.cpu.percent"
          = agg.get s.a "system.cpu.percent") ∧
      (r.memErr ≠ none →
        agg.get (mainSample O s r).1.a "system.mem.used_percent"
          = agg.get s.a "system.mem.used_percent") ∧
      (r.tempsErr ≠ none →
        agg.get (mainSample O s r).1.a "system.cpu.temp_c"
          = agg.get s.a "system.cpu.temp_c") ∧
      (r.netErr ≠ none →
        agg.get (mainSample O s r).1.a "system.net.recv_bytes_per_sec"
            = agg.get s.a "system.net.recv_bytes_per_sec" ∧
          agg.get (mainSample O s r).1.a "system.net.sent_bytes_per_sec"
            = agg.get s.a "system.net.sent_bytes_per_sec" ∧
          (mainSample O s r).1.lastNetRecv = s.lastNetRecv ∧
          (mainSample O s r).1.lastNetSent = s.lastNetSent ∧
          (mainSample O s r).1.primedNet = s.primedNet)) ∧
    ((∀ (c : List F) (e : Option String) (n : String), n ≠ "system.cpu.percent" →
        agg.get (mainSample O s (withCpu r c e)).1.a n = agg.get (mainSample O s r).1.a n) ∧
      (∀ (v : F) (e : Option String) (n : String), n ≠ "system.mem.used_percent" →
        agg.get (mainSample O s (withMem r v e)).1.a n = agg.get (mainSample O s r).1.a n) ∧
      (∀ (t : List (TemperatureStat F)) (e : Option String) (n : String),
        n ≠ "system.cpu.temp_c" →
        agg.get (mainSample O s (withTemps r t e)).1.a n
          = agg.get (mainSample O s r).1.a n) ∧
      (∀ (st : List IOCountersStat) (e : Option String) (n : String),
        n ≠ "system.net.recv_bytes_per_sec" → n ≠ "system.net.sent_bytes_per_sec" →
        agg.get (mainSample O s (withNet r st e)).1.a n
          = agg.get (mainSample O s r).1.a n)) ∧
    (∀ r2 : Readings F, r2.netStats = r.netStats → r2.netErr = r.netErr →
      (mainSample O s r2).1.lastNetRecv = (mainSample O s r).1.lastNetRecv ∧
        (mainSample O s r2).1.lastNetSent = (mainSample O s r).1.lastNetSent ∧
        (mainSample O s r2).1.primedNet = (mainSample O s r).1.primedNet) ∧
    ((∀ (c : List F) (e : Option String), reportDue fl (withCpu r c e) = reportDue fl r) ∧
      (∀ (v : F) (e : Option String), reportDue fl (withMem r v e) = reportDue fl r) ∧
      (∀ (t : List (TemperatureStat F)) (e : Option String),
        reportDue fl (withTemps r t e) = reportDue fl r) ∧
      (∀ (st : List IOCountersStat) (e : Option String),
        reportDue fl (withNet r st e) = reportDue fl r)) ∧
    ((mainTick O fl s r).1.a = (if reportDue fl r then [] else (mainSample O s r).1.a) ∧
      (mainTick O fl s r).1.lastReport
        = (if reportDue fl r then r.now else s.lastReport)) := by
  refine ⟨⟨?_, ?_, ?_, ?_⟩, ⟨?_, ?_, ?_, ?_⟩, ?_, ⟨?_, ?_, ?_, ?_⟩, ?_, ?_⟩
  · intro h
    rw [mainSample_get_cpu]
    unfold sampleCpu
    rcases h with h | h
    · cases he : r.cpuErr with
      | none => exact absurd he h
      | some e => rfl
    · rw [h]
      cases r.cpuErr <;> rfl
  · intro h
    rw [mainSample_get_mem]
    unfold sampleMem
    cases he : r.memErr with
    | none => exact absurd he h
    | some e => exact sampleCpu_get O s.a r _ (by decide)
  · intro h
    rw [mainSample_get_temp]
    unfold sampleTemp cpuTempC
    cases he : r.tempsErr with
    | none => exact absurd he h
    | some e =>
      simp only [Option.isSome_some, Bool.true_or, if_true, Bool.false_eq_true, if_false]
      rw [sampleMem_get O _ r "system.cpu.temp_c" (by decide),
        sampleCpu_get O _ r "system.cpu.temp_c" (by decide)]
  · intro h
    obtain ⟨u1, u2⟩ := mainSample_net_unchanged O s r (Or.inl h)
    obtain ⟨k1, k2, k3⟩ := mainSample_state_err O s r h
    exact ⟨u1, u2, k1, k2, k3⟩
  · intro c e n hn
    exact mainSample_withCpu O s r c e n hn
  · intro v e n hn
    exact mainSample_withMem O s r v e n hn
  · intro t e n hn
    exact mainSample_withTemps O s r t e n hn
  · intro st e n h1 h2
    exact mainSample_withNet O s r st e n h1 h2
  · intro r2 hp he
    exact mainSample_net_state O s r2 r hp he
  · intro c e; rfl
  · intro v e; rfl
  · intro t e; rfl
  · intro st e; rfl
  · rw [mainTick_fst, mainReport_a]
  · rw [mainTick_fst]
    unfold mainReport
    split
    · rfl
    · exact mainSample_lastReport O s r

/-! ## The two network entries go together -/

/-- Sampling keeps the two network entries paired, with one more iteration
counted. -/
theorem netPaired_mainSample {F : Type} (O : Float64Ops F) (s : State F) (r : Readings F)
    (n : Nat) (h : netPaired s.a n) : netPaired (mainSample O s r).1.a (n + 1) := by
  by_cases hk : r.netErr = none ∧ s.primedNet = true
  · obtain ⟨g1, g2⟩ := mainSample_net_primed O s r hk.1 hk.2
    right
    rcases h with ⟨h1, h2⟩ | ⟨m1, m2, h1, h2, hc, hle⟩
    · rw [h1] at g1
      rw [h2] at g2
      refine ⟨_, _, g1, g2, rfl, ?_⟩
      show (1 : Int) ≤ ((n + 1 : Nat) : Int)
      omega
    · rw [h1] at g1
      rw [h2] at g2
      refine ⟨_, _, g1, g2, ?_, ?_⟩
      · show m1.Count + 1 = m2.Count + 1
        rw [hc]
      · show m1.Count + 1 ≤ ((n + 1 : Nat) : Int)
        omega
  · have hk2 : r.netErr ≠ none ∨ s.primedNet = false := by
      by_cases he : r.netErr = none
      · right
        cases hp : s.primedNet with
        | false => rfl
        | true => exact absurd ⟨he, hp⟩ hk
      · exact Or.inl he
    obtain ⟨u1, u2⟩ := mainSample_net_unchanged O s r hk2
    rcases h with ⟨h1, h2⟩ | ⟨m1, m2, h1, h2, hc, hle⟩
    · left
      exact ⟨u1.trans h1, u2.trans h2⟩
    · right
      refine ⟨m1, m2, u1.trans h1, u2.trans h2, hc, ?_⟩
      have : ((n + 1 : Nat) : Int) = (n : Int) + 1 := by push_cast; rfl
      omega

/-- The loop keeps the two network entries paired. -/
theorem netPaired_mainLoop {F : Type} (O : Float64Ops F) (fl : Flags)
    (rs : List (Readings F)) :
    ∀ (s : State F) (n : Nat), netPaired s.a n →
      netPaired (mainLoop O fl s rs).1.a (ticksSinceFlush fl n rs) := by
  induction rs with
  | nil => intro s n h; exact h
  | cons r rs ih =>
    intro s n h
    unfold mainLoop ticksSinceFlush
    by_cases hs : r.stop = true
    · rw [if_pos hs, if_pos hs]
      exact h
    · rw [if_neg hs, if_neg hs]
      dsimp only
      apply ih
      rw [mainTick_fst, mainReport_a]
      by_cases hd : reportDue fl r = true
      · rw [if_pos hd, if_pos hd]
        exact Or.inl ⟨rfl, rfl⟩
      · rw [if_neg hd, if_neg hd]
        exact netPaired_mainSample O s r n h

/-- C10: in every state that the loop of main reaches from its initial state,
whatever the reads answer and whenever reports are due, the entries
system.net.recv_bytes_per_sec and system.net.sent_bytes_per_sec are both absent
from the aggregate or both present with the same Count, and that Count is at
most the number of iterations since the last report. -/
theorem net_entries_paired {F : Type} (O : Float64Ops F) (fl : Flags) (t0 : Int)
    (rs : List (Readings F)) :
    (agg.get (mainLoop O fl (initState F t0) rs).1.a "system.net.recv_bytes_per_sec" = none ∧
        agg.get (mainLoop O fl (initState F t0) rs).1.a "system.net.sent_bytes_per_sec"
          = none) ∨
      ∃ m1 m2 : Metric F,
        agg.get (mainLoop O fl (initState F t0) rs).1.a "system.net.recv_bytes_per_sec"
            = some m1 ∧
          agg.get (mainLoop O fl (initState F t0) rs).1.a "system.net.sent_bytes_per_sec"
            = some m2 ∧
          m1.Count = m2.Count ∧ m1.Count ≤ (ticksSinceFlush fl 0 rs : Int) := by
  have h0 : netPaired (initState F t0).a 0 := Or.inl ⟨rfl, rfl⟩
  have h := netPaired_mainLoop O fl rs (initState F t0) 0 h0
  unfold netPaired at h
  exact h

end Collector
